import Mathlib

/-!
Verification of the TribalKnowledge Slack bot core (`slack_bot` package).

This file shallowly embeds the data model and operations of the bot:
the query cache store (`cache_store.py`), the MCP JSON-RPC client
(`mcp_client.py`), the LLM provider with fallback (`llm_provider.py`),
the thread-context store (`thread_context.py`) and the agentic message
loop (`message_handler.py`).  Python strings are modelled as Lean
`String`s, timestamps as natural numbers (seconds), floats that only
ever hold exact ratios as `ℚ`, `None`-able values as `Option`, and
fallible calls as `Except`.  External effects (HTTP requests to MCP
servers and LLM back-ends) are modelled as oracle functions passed in
as arguments; operations additionally return a trace of the requests
they issued so that "no call was made" is expressible.
-/

/-! ## String helpers shared by several modules -/

/-- Membership test of `sub` inside `s`, the model of Python's `sub in s`. -/
def strContains (s sub : String) : Bool :=
  decide (sub.data <:+: s.data)

/-- Model of Python's `str.lower()` (ASCII-faithful). -/
def strLower (s : String) : String :=
  String.mk (s.data.map Char.toLower)

/-- Characters Python's `str.split()` (no argument) treats as whitespace. -/
def isPySpace (c : Char) : Bool :=
  c = ' ' || c = '\t' || c = '\n' || c = '\r' || c = '\x0b' || c = '\x0c'

/-- Auxiliary scanner for `pyWords`: splits on runs of whitespace, the
accumulator holds the current word reversed. -/
def pyWordsAux : List Char → List Char → List (List Char)
  | [], acc => if acc = [] then [] else [acc.reverse]
  | c :: rest, acc =>
    if isPySpace c then
      if acc = [] then pyWordsAux rest [] else acc.reverse :: pyWordsAux rest []
    else
      pyWordsAux rest (c :: acc)

/-- Model of Python's `s.split()`: whitespace-separated words, no empties. -/
def pyWords (s : String) : List String :=
  (pyWordsAux s.data []).map String.mk

/-- Model of `" ".join(l)`. -/
def joinSpace (l : List String) : String :=
  " ".intercalate l

/-! ## Query cache store (`slack_bot/cache_store.py`)

The SQLite table `query_cache` is modelled as a list of rows in rowid
order; `AUTOINCREMENT` is modelled by a `next_id` counter.  The MD5
`hash_question` is kept abstract: every operation takes the hash
function `hq` as an explicit argument (the source's MD5 is injective
only best-effort, and no claim depends on its concrete value).
`datetime.utcnow()` is passed in as an explicit `now : Nat`. -/

/-- Default `CACHE_TTL_SECONDS` (7 days), from `cache_store.py`. -/
def CACHE_TTL_SECONDS : Nat := 86400 * 7

/-- Default `CACHE_FUZZY_THRESHOLD` (0.99), from `cache_store.py`. -/
def CACHE_FUZZY_THRESHOLD : ℚ := 99 / 100

/-- Model of `normalize_question`: lowercase, strip, collapse whitespace.
The source's `.strip()` is absorbed by `.split()`, which already drops
leading and trailing whitespace. -/
def normalize_question (question : String) : String :=
  joinSpace (pyWords (strLower question))

/-- Model of `fuzzy_match_score`: word-overlap ratio, with the short-string
exact-equality guard.  Python `set(...)` sizes become `List.dedup` lengths. -/
def fuzzy_match_score (q1 q2 : String) : ℚ :=
  if q1 = "" || q2 = "" then 0
  else if q1.length < 15 || q2.length < 15 then
    (if q1 = q2 then 1 else 0)
  else
    let words1 := (pyWords q1).dedup
    let words2 := (pyWords q2).dedup
    if words1 = [] || words2 = [] then 0
    else
      let overlap := (words1.filter (fun w => words2.contains w)).length
      let max_len := max words1.length words2.length
      if 0 < max_len then (overlap : ℚ) / (max_len : ℚ) else 0

/-- Spec-side fuzzy formula, written from the spec's words
"`|words(a) ∩ words(b)| / max(|words(a)|, |words(b)|)`" for comparison
with the implementation's long-string branch. -/
def jaccard_spec (a b : String) : ℚ :=
  let wa := (pyWords a).dedup
  let wb := (pyWords b).dedup
  ((wa.filter (fun w => wb.contains w)).length : ℚ) / (max wa.length wb.length : ℚ)

/-- Row of the `query_cache` table, which is also the `CachedResponse`
dataclass (fields in column order).  `tools_used` entries are the
`{server, tool, arguments}` records the agent loop produces; the
display-only `detail` string (a pure function of `arguments`) is not
carried.  Timestamps are seconds since the epoch. -/
structure CachedResponse where
  id : Nat
  question_hash : String
  question_text : String
  question_normalized : String
  response_text : String
  tools_used : List (String × String × List (String × String))
  sql_queries : List String
  progress_events : List String
  hit_count : Nat
  created_at : Nat
  last_hit_at : Option Nat
  deriving DecidableEq

/-- Model of `CachedResponse.is_expired`: `now - created_at > ttl`.
Natural subtraction agrees with the source because a negative
`timedelta` also compares below the (positive) TTL. -/
def CachedResponse.is_expired (r : CachedResponse) (now ttl : Nat) : Bool :=
  decide (ttl < now - r.created_at)

/-- State of a `QueryCacheStore`: the table rows in rowid order, the next
`AUTOINCREMENT` id, and the `_enabled` flag. -/
structure QueryCacheStore where
  rows : List CachedResponse
  next_id : Nat
  enabled : Bool
  deriving DecidableEq

namespace QueryCacheStore

/-- Model of `_find_by_hash`: first row with the given `question_hash`. -/
def _find_by_hash (rows : List CachedResponse) (h : String) : Option CachedResponse :=
  rows.find? (fun r => r.question_hash = h)

/-- Model of `_find_by_normalized`: first row with the given normalized text. -/
def _find_by_normalized (rows : List CachedResponse) (n : String) : Option CachedResponse :=
  rows.find? (fun r => r.question_normalized = n)

/-- Scan order of `_find_fuzzy`'s SQL:
`ORDER BY last_hit_at DESC NULLS LAST, created_at DESC`. -/
def scanBefore (a b : CachedResponse) : Prop :=
  match a.last_hit_at, b.last_hit_at with
  | some x, some y => if x = y then b.created_at ≤ a.created_at else y ≤ x
  | some _, none => True
  | none, some _ => False
  | none, none => b.created_at ≤ a.created_at

instance : DecidableRel scanBefore := fun a b => by
  unfold scanBefore
  match a.last_hit_at, b.last_hit_at with
  | some x, some y => exact inferInstanceAs (Decidable _)
  | some _, none => exact inferInstanceAs (Decidable True)
  | none, some _ => exact inferInstanceAs (Decidable False)
  | none, none => exact inferInstanceAs (Decidable _)

/-- Model of `_find_fuzzy`: scan the 100 most recently used rows, keep the
best score strictly above the running threshold. -/
def _find_fuzzy (thr : ℚ) (rows : List CachedResponse) (normalized : String) :
    Option CachedResponse :=
  let scan := (List.insertionSort scanBefore rows).take 100
  (scan.foldl
    (fun best r =>
      let score := fuzzy_match_score normalized r.question_normalized
      if best.2 < score then (some r, score) else best)
    ((none : Option CachedResponse), thr)).1

/-- Model of `_record_hit`: bump `hit_count` and stamp `last_hit_at` on the
row with the given id. -/
def _record_hit (now : Nat) (rows : List CachedResponse) (cache_id : Nat) :
    List CachedResponse :=
  rows.map (fun r =>
    if r.id = cache_id then { r with hit_count := r.hit_count + 1, last_hit_at := some now }
    else r)

/-- Model of `find_match`: three-tier lookup (hash, exact normalized, fuzzy),
returning the first non-expired hit and recording the hit in the table.
Returns the hit (a pre-hit snapshot, exactly as the source builds the
`CachedResponse` from the row before `_record_hit` runs) and the new state. -/
def find_match (hq : String → String) (now ttl : Nat) (thr : ℚ)
    (st : QueryCacheStore) (question : String) :
    Option CachedResponse × QueryCacheStore :=
  if st.enabled = false then (none, st)
  else
    let normalized := normalize_question question
    let question_hash := hq normalized
    let tier1 :=
      match _find_by_hash st.rows question_hash with
      | some c => if c.is_expired now ttl then none else some c
      | none => none
    match tier1 with
    | some c => (some c, { st with rows := _record_hit now st.rows c.id })
    | none =>
      let tier2 :=
        match _find_by_normalized st.rows normalized with
        | some c => if c.is_expired now ttl then none else some c
        | none => none
      match tier2 with
      | some c => (some c, { st with rows := _record_hit now st.rows c.id })
      | none =>
        let tier3 :=
          match _find_fuzzy thr st.rows normalized with
          | some c => if c.is_expired now ttl then none else some c
          | none => none
        match tier3 with
        | some c => (some c, { st with rows := _record_hit now st.rows c.id })
        | none => (none, st)

/-- Model of `save`: insert a fresh row with `hit_count = 0` and
`last_hit_at = NULL`; on a `UNIQUE(question_hash)` violation, update the
existing row in place (the source's `IntegrityError` branch, which resets
the counters and leaves `question_normalized` untouched).  Returns the new
state and the cache id (`-1` when disabled or updated in place). -/
def save (hq : String → String) (now : Nat) (st : QueryCacheStore)
    (question response_text : String)
    (tools_used : List (String × String × List (String × String)))
    (sql_queries : List String) (progress_events : List String) :
    QueryCacheStore × Int :=
  if st.enabled = false then (st, -1)
  else
    let normalized := normalize_question question
    let question_hash := hq normalized
    if st.rows.any (fun r => r.question_hash = question_hash) then
      ({ st with rows := st.rows.map (fun r =>
          if r.question_hash = question_hash then
            { r with question_text := question, response_text := response_text,
                     tools_used := tools_used, sql_queries := sql_queries,
                     progress_events := progress_events, created_at := now,
                     hit_count := 0, last_hit_at := none }
          else r) }, -1)
    else
      ({ st with
          rows := st.rows ++
            [{ id := st.next_id, question_hash := question_hash,
               question_text := question, question_normalized := normalized,
               response_text := response_text, tools_used := tools_used,
               sql_queries := sql_queries, progress_events := progress_events,
               hit_count := 0, created_at := now, last_hit_at := none }],
          next_id := st.next_id + 1 }, (st.next_id : Int))

end QueryCacheStore

/-! ## MCP client (`slack_bot/mcp_client.py`)

The HTTP layer is abstracted into two oracles: `initO` models the
`initialize` POST (returning the `mcp-session-id` header or raising) and
`callO` models the `tools/call` POST composed with `parse_sse_response`
(returning the parsed JSON-RPC envelope — either its `error` member or
its `result` — or raising on a transport failure).  `call_tool` also
returns the list of requests it actually issued, so that retry behaviour
is observable. -/

/-- Configuration of an MCP server (`MCPServerConfig` dataclass). -/
structure MCPServerConfig where
  server_id : String
  url : String
  description : String
  enabled : Bool
  deriving DecidableEq

/-- A tool from an MCP server (`MCPTool` dataclass); `input_schema` is an
opaque JSON-schema string. -/
structure MCPTool where
  name : String
  description : String
  input_schema : String
  server_id : String
  server_url : String
  deriving DecidableEq

/-- Model of the `MCPTool.full_name` property: `server_id__tool_name`. -/
def MCPTool.full_name (t : MCPTool) : String :=
  t.server_id ++ "__" ++ t.name

/-- In-memory state of an `MCPClient`: enabled servers, the per-server
session map `_sessions`, and the catalog `_tools` keyed by full name. -/
structure MCPClient where
  servers : List (String × MCPServerConfig)
  _sessions : List (String × String)
  _tools : List (String × MCPTool)
  deriving DecidableEq

/-- A request issued during `call_tool`: an `initialize` handshake for a
server, or a `tools/call` carrying the (unnamespaced) tool name. -/
inductive MCPRequest where
  | initReq (server_id : String)
  | toolReq (server_id : String) (name : String) (arguments : List (String × String))
  deriving DecidableEq

/-- Parsed outcome of a `tools/call` response envelope: either the
envelope's `error` member or its `result` payload. -/
inductive MCPEnvelope where
  | envError (e : String)
  | envResult (payload : String)
  deriving DecidableEq

/-- Result of `call_tool`: the source returns a dict that either carries an
`error` key or the tool result. -/
inductive MCPToolResult where
  | err (e : String)
  | ok (payload : String)
  deriving DecidableEq

namespace MCPClient

/-- Model of `MCPClient.call_tool`: look up the tool and its server, open a
session only when none is stored, then POST `tools/call` once with the
tool's original (unnamespaced) name; a transport failure or an envelope
error is returned as an `err` value, never raised, and triggers no
re-initialization and no retry. -/
def call_tool (st : MCPClient)
    (initO : MCPServerConfig → Except String String)
    (callO : MCPServerConfig → String → String → List (String × String) →
      Except String MCPEnvelope)
    (full_name : String) (arguments : List (String × String)) :
    MCPToolResult × MCPClient × List MCPRequest :=
  match st._tools.lookup full_name with
  | none => (.err ("Unknown tool: " ++ full_name), st, [])
  | some tool =>
    match st.servers.lookup tool.server_id with
    | none => (.err ("Unknown server: " ++ tool.server_id), st, [])
    | some server =>
      let doCall := fun (st1 : MCPClient) (session_id : String) (tr : List MCPRequest) =>
        let tr1 := tr ++ [.toolReq tool.server_id tool.name arguments]
        match callO server session_id tool.name arguments with
        | .error e => (MCPToolResult.err e, st1, tr1)
        | .ok (.envError e) => (MCPToolResult.err e, st1, tr1)
        | .ok (.envResult p) => (MCPToolResult.ok p, st1, tr1)
      match st._sessions.lookup tool.server_id with
      | some session_id => doCall st session_id []
      | none =>
        match initO server with
        | .ok session_id =>
          doCall { st with _sessions := st._sessions ++ [(tool.server_id, session_id)] }
            session_id [.initReq tool.server_id]
        | .error e =>
          (.err ("Failed to connect to " ++ tool.server_id ++ ": " ++ e), st,
            [.initReq tool.server_id])

end MCPClient

/-- Detector for two adjacent underscores, used to state when a server id
is safe for the `server_id__tool_name` convention. -/
def hasDoubleUnderscore : List Char → Bool
  | c1 :: c2 :: rest => (c1 = '_' && c2 = '_') || hasDoubleUnderscore (c2 :: rest)
  | _ => false

/-- Split a list at the first occurrence of `sep`, the model of Python's
`s.split(sep, 1)` when `sep` occurs (`none` when it does not). -/
def splitFirst (sep : List Char) : List Char → Option (List Char × List Char)
  | [] => if sep = [] then some ([], []) else none
  | c :: rest =>
    if sep.isPrefixOf (c :: rest) then some ([], (c :: rest).drop sep.length)
    else
      match splitFirst sep rest with
      | some (a, b) => some (c :: a, b)
      | none => none

/-- Model of `parse_tool_name`: split the full name on the first `__`;
names without `__` fall back to the `default` server. -/
def parse_tool_name (full_name : String) : String × String :=
  match splitFirst ['_', '_'] full_name.data with
  | some (a, b) => (String.mk a, String.mk b)
  | none => ("default", full_name)

/-! ## LLM provider (`slack_bot/llm_provider.py`)

The two OpenAI-compatible back-ends are oracles: `primary` maps the
attempt number to a response or an error (the call is made with the same
arguments each attempt, but a remote endpoint may answer differently),
`fallback` is a single response or error.  `call_with_fallback` returns
the result together with a trace of the attempts it made and the backoff
sleeps it performed. -/

/-- A tool call as returned by the chat-completions API
(`{id, type: "function", function: {name, arguments}}`); `arguments` is
modelled post-`json.loads` as a key/value list. -/
structure LLMToolCall where
  id : String
  name : String
  arguments : List (String × String)
  deriving DecidableEq

/-- Model of `LLMResponse` (token usage and finish reason carry no claim
and are omitted). -/
structure LLMResponse where
  content : Option String
  tool_calls : Option (List LLMToolCall)
  used_fallback : Bool
  actual_model : String
  deriving DecidableEq

/-- An exception raised by a back-end client: optional `status_code` and
`status` attributes (absent attribute = `none`) and the exception text. -/
structure LLMError where
  status_code : Option Nat
  status : Option Nat
  msg : String
  deriving DecidableEq

/-- Model of `is_credits_error`: 402 on either status attribute, or one of
the credit indicator substrings in the lowercased message. -/
def is_credits_error (e : LLMError) : Bool :=
  (e.status_code = some 402) || (e.status = some 402) ||
    (["402", "credits", "insufficient", "can only afford", "quota exceeded"].any
      (fun ind => strContains (strLower e.msg) ind))

/-- Model of `is_retryable_error`: 429 / 5xx on `status_code`, or one of the
retryable substrings in the lowercased message. -/
def is_retryable_error (e : LLMError) : Bool :=
  (match e.status_code with
   | some s => (s = 429) || (500 ≤ s && s < 600)
   | none => false) ||
    (["timeout", "rate limit", "429", "503", "504", "connection", "network"].any
      (fun pat => strContains (strLower e.msg) pat))

/-- Model of `LLMConfig`: the availability properties stand in for the
presence of the API keys. -/
structure LLMConfig where
  primary_model : String
  fallback_model : String
  fallback_enabled : Bool
  primary_available : Bool
  fallback_available : Bool
  deriving DecidableEq

/-- Error raised out of `call_with_fallback`: the re-raised primary error,
the aggregate `RuntimeError` citing both underlying causes, or the
no-provider `RuntimeError`. -/
inductive LLMCallError where
  | raised (e : LLMError)
  | aggregate (primary_err : Option LLMError) (fallback_err : LLMError)
  | noProvider
  deriving DecidableEq

/-- Trace of one `call_with_fallback` run: primary attempts made, backoff
sleeps performed (seconds, in order), and fallback calls made. -/
structure LLMCallTrace where
  primary_attempts : Nat
  sleeps : List Nat
  fallback_calls : Nat
  deriving DecidableEq

/-- Model of the `for attempt in range(1, max_retries + 1)` loop over the
primary back-end: returns the successful response or the last error, with
the attempt count and the sleeps performed.  Fuel equals
`max_retries - attempt + 1` at every call. -/
def tryPrimary (primary : Nat → Except LLMError LLMResponse) (max_retries : Nat) :
    Nat → Nat → Option LLMResponse × Option LLMError × Nat × List Nat
  | _, 0 => (none, none, 0, [])
  | attempt, fuel + 1 =>
    match primary attempt with
    | .ok r => (some r, none, 1, [])
    | .error e =>
      if is_credits_error e then (none, some e, 1, [])
      else if is_retryable_error e = false then (none, some e, 1, [])
      else if attempt < max_retries then
        let delay := min (2 ^ (attempt - 1)) 10
        let rest := tryPrimary primary max_retries (attempt + 1) fuel
        (rest.1, (match rest.2.1 with | some e2 => some e2 | none => some e),
          rest.2.2.1 + 1, delay :: rest.2.2.2)
      else (none, some e, 1, [])

/-- Model of `LLMProvider.call_with_fallback`: primary with classified
retries, then the fallback once; failures of both raise the aggregate
error citing both causes. -/
def call_with_fallback (config : LLMConfig)
    (primary : Nat → Except LLMError LLMResponse)
    (fallback : Except LLMError LLMResponse) (max_retries : Nat) :
    Except LLMCallError LLMResponse × LLMCallTrace :=
  let prim :=
    if config.primary_available then tryPrimary primary max_retries 1 max_retries
    else (none, none, 0, [])
  match prim.1 with
  | some r =>
    (.ok { r with used_fallback := false, actual_model := config.primary_model },
      ⟨prim.2.2.1, prim.2.2.2, 0⟩)
  | none =>
    let last_error := prim.2.1
    if config.fallback_enabled && config.fallback_available then
      match fallback with
      | .ok r =>
        (.ok { r with used_fallback := true, actual_model := config.fallback_model },
          ⟨prim.2.2.1, prim.2.2.2, 1⟩)
      | .error f =>
        (.error (.aggregate last_error f), ⟨prim.2.2.1, prim.2.2.2, 1⟩)
    else
      match last_error with
      | some e => (.error (.raised e), ⟨prim.2.2.1, prim.2.2.2, 0⟩)
      | none => (.error .noProvider, ⟨prim.2.2.1, prim.2.2.2, 0⟩)

/-! ## Thread context store (`slack_bot/thread_context.py`)

The SQLite table `thread_contexts` is modelled as a list of rows keyed by
`thread_key`.  JSON (de)serialization of the message list is modelled by
`Message.to_dict` / `Message.from_dict`, which reproduce the source's
falsy-field dropping. -/

/-- A message of a conversation (`Message` dataclass); `timestamp` is a
`Nat` epoch value. -/
structure Message where
  role : String
  content : String
  timestamp : Nat
  user_id : Option String
  tool_calls : Option (List LLMToolCall)
  tool_call_id : Option String
  deriving DecidableEq

/-- Model of `Message.to_dict`: Python drops the optional fields when they
are falsy (`None`, `""` or `[]`); the dictionary itself is represented by
a `Message` value whose dropped fields are `none`. -/
def Message.to_dict (m : Message) : Message :=
  { m with
      user_id := match m.user_id with
        | some s => if s = "" then none else some s
        | none => none,
      tool_calls := match m.tool_calls with
        | some l => if l = [] then none else some l
        | none => none,
      tool_call_id := match m.tool_call_id with
        | some s => if s = "" then none else some s
        | none => none }

/-- Model of `Message.from_dict`: every key `to_dict` may produce is read
back as-is (the `d.get` defaults only apply to keys `to_dict` never
omits), so on stored dictionaries it is the identity. -/
def Message.from_dict (d : Message) : Message := d

/-- Conversation context for a Slack thread (`ThreadContext` dataclass). -/
structure ThreadContext where
  channel_id : String
  thread_ts : String
  user_id : String
  messages : List Message
  metadata : List (String × String)
  created_at : Nat
  updated_at : Nat
  deriving DecidableEq

/-- Model of the `ThreadContext.thread_key` property. -/
def ThreadContext.thread_key (c : ThreadContext) : String :=
  c.channel_id ++ ":" ++ c.thread_ts

/-- Model of `ThreadContext.add_user_message` (with `utcnow` passed in). -/
def ThreadContext.add_user_message (c : ThreadContext) (now : Nat) (content : String)
    (user_id : Option String) : ThreadContext :=
  { c with
      messages := c.messages ++
        [{ role := "user", content := content, timestamp := now,
           user_id := some (user_id.getD c.user_id), tool_calls := none,
           tool_call_id := none }],
      updated_at := now }

/-- Model of `ThreadContext.add_assistant_message`. -/
def ThreadContext.add_assistant_message (c : ThreadContext) (now : Nat)
    (content : Option String) (tool_calls : Option (List LLMToolCall)) : ThreadContext :=
  { c with
      messages := c.messages ++
        [{ role := "assistant", content := content.getD "", timestamp := now,
           user_id := none, tool_calls := tool_calls, tool_call_id := none }],
      updated_at := now }

/-- Model of `ThreadContext.add_tool_result`. -/
def ThreadContext.add_tool_result (c : ThreadContext) (now : Nat)
    (tool_call_id : String) (content : String) : ThreadContext :=
  { c with
      messages := c.messages ++
        [{ role := "tool", content := content, timestamp := now,
           user_id := none, tool_calls := none, tool_call_id := some tool_call_id }],
      updated_at := now }

/-- A message in the shape the chat-completions API expects; absent keys
are `none`. -/
structure ChatMessage where
  role : String
  content : String
  tool_calls : Option (List LLMToolCall)
  tool_call_id : Option String
  deriving DecidableEq

/-- Model of `ThreadContext.get_messages_for_llm`: the trailing
`max_messages` entries, flattened for the API with falsy `tool_calls` and
`tool_call_id` dropped. -/
def ThreadContext.get_messages_for_llm (c : ThreadContext) (max_messages : Nat) :
    List ChatMessage :=
  let recent := c.messages.drop (c.messages.length - max_messages)
  recent.map (fun m =>
    { role := m.role, content := m.content,
      tool_calls := match m.tool_calls with
        | some l => if l = [] then none else some l
        | none => none,
      tool_call_id := match m.tool_call_id with
        | some s => if s = "" then none else some s
        | none => none })

/-- Row of the `thread_contexts` table. -/
structure ContextRow where
  thread_key : String
  channel_id : String
  thread_ts : String
  user_id : String
  messages : List Message
  metadata : List (String × String)
  created_at : Nat
  updated_at : Nat
  deriving DecidableEq

/-- State of a `ThreadContextStore`: the table rows. -/
structure ThreadContextStore where
  rows : List ContextRow
  deriving DecidableEq

namespace ThreadContextStore

/-- Reconstruction of a `ThreadContext` from a row, as both `get` and
`get_or_create` perform it (`Message.from_dict` over the stored list). -/
def rowToContext (row : ContextRow) : ThreadContext :=
  { channel_id := row.channel_id, thread_ts := row.thread_ts,
    user_id := row.user_id, messages := row.messages.map Message.from_dict,
    metadata := row.metadata, created_at := row.created_at,
    updated_at := row.updated_at }

/-- Model of `ThreadContextStore.get`: `none` when the thread was never
created here. -/
def get (st : ThreadContextStore) (channel_id thread_ts : String) :
    Option ThreadContext :=
  (st.rows.find? (fun row => row.thread_key = channel_id ++ ":" ++ thread_ts)).map
    rowToContext

/-- Model of `ThreadContextStore.get_or_create`: return the stored context,
or insert and return a fresh empty one. -/
def get_or_create (now : Nat) (st : ThreadContextStore)
    (channel_id thread_ts user_id : String) : ThreadContext × ThreadContextStore :=
  match st.rows.find? (fun row => row.thread_key = channel_id ++ ":" ++ thread_ts) with
  | some row => (rowToContext row, st)
  | none =>
    ({ channel_id := channel_id, thread_ts := thread_ts, user_id := user_id,
       messages := [], metadata := [], created_at := now, updated_at := now },
     { rows := st.rows ++
        [{ thread_key := channel_id ++ ":" ++ thread_ts, channel_id := channel_id,
           thread_ts := thread_ts, user_id := user_id, messages := [],
           metadata := [], created_at := now, updated_at := now }] })

/-- Model of `ThreadContextStore.save`: an SQL `UPDATE ... WHERE
thread_key = ?`, which serializes the messages into the matching row and
touches nothing when no row matches. -/
def save (now : Nat) (st : ThreadContextStore) (context : ThreadContext) :
    ThreadContextStore :=
  { rows := st.rows.map (fun row =>
      if row.thread_key = context.thread_key then
        { row with messages := context.messages.map Message.to_dict,
                   metadata := context.metadata, updated_at := now }
      else row) }

end ThreadContextStore

/-! ## Agent loop (`slack_bot/message_handler.py`)

`process_message` drives the LLM / tool loop.  The LLM provider is the
oracle `llm` mapping the current message list to a response or a raised
exception text; the MCP client is the oracle `callTool` mapping a full
tool name and parsed arguments to the serialized tool result or a raised
exception text.  The progress callback performs no state change that the
loop observes and is omitted. -/

/-- Maximum iterations of the agentic loop (`MAX_ITERATIONS`). -/
def MAX_ITERATIONS : Nat := 10

/-- Model of `json.dumps({"error": str(e)})`, the tool-message content the
loop produces when a tool call raises. -/
def json_error (e : String) : String :=
  "\x7b\"error\": \"" ++ e ++ "\"\x7d"

/-- Model of `ProcessingResult` as defined in `message_handler.py`;
`tools_used` entries are `(server, tool, arguments)` triples. -/
structure ProcessingResult where
  response_text : String
  used_fallback : Bool
  actual_model : String
  tools_used : List (String × String × List (String × String))
  iterations : Nat
  error : Option String
  sql_queries : List String
  deriving DecidableEq

/-- Model of `build_system_prompt`: the tool-list line with its
take-20-plus-suffix logic; the long static guidance text is abbreviated
to its opening sentence (no claim depends on the prompt's wording). -/
def build_system_prompt (tool_names : List String) : String :=
  let tool_list := ", ".intercalate (tool_names.take 20) ++
    (if 20 < tool_names.length then
      " (and " ++ toString (tool_names.length - 20) ++ " more)"
    else "")
  "You are a helpful AI assistant with access to database tools via MCP" ++
    " (Model Context Protocol) servers. Available Tools (" ++
    toString tool_names.length ++ " total): " ++ tool_list

/-- Mutable state threaded through one iteration's tool-call sequence. -/
structure LoopAcc where
  messages : List ChatMessage
  context : ThreadContext
  tools_used : List (String × String × List (String × String))
  sql_queries : List String
  deriving DecidableEq

/-- Model of the per-tool-call body of the loop: parse the name, invoke the
tool (exceptions become an `error` payload, never propagate), record the
usage and any `sql` argument, and append the `tool` message. -/
def execToolCall (callTool : String → List (String × String) → Except String String)
    (now : Nat) (acc : LoopAcc) (tc : LLMToolCall) : LoopAcc :=
  let parsed := parse_tool_name tc.name
  let content :=
    match callTool tc.name tc.arguments with
    | .ok s => s
    | .error e => json_error e
  { messages := acc.messages ++
      [{ role := "tool", content := content, tool_calls := none,
         tool_call_id := some tc.id }],
    context := acc.context.add_tool_result now tc.id content,
    tools_used := acc.tools_used ++ [(parsed.1, parsed.2, tc.arguments)],
    sql_queries := acc.sql_queries ++
      (match tc.arguments.lookup "sql" with
       | some s => [s]
       | none => []) }

/-- Model of the `while iteration < MAX_ITERATIONS` loop of
`process_message`.  The first argument is the remaining iteration budget
(`MAX_ITERATIONS - iteration`), the second the number of iterations
already performed; `tools_used`, `sql_queries`, `used_fallback` and
`actual_model` are the loop's accumulators. -/
def agentLoop (llm : List ChatMessage → Except String LLMResponse)
    (callTool : String → List (String × String) → Except String String) (now : Nat) :
    Nat → Nat → List ChatMessage → ThreadContext →
    List (String × String × List (String × String)) → List String → Bool → String →
    ProcessingResult × ThreadContext
  | 0, iteration, _, ctx, tools_used, sqls, fb, am =>
    ({ response_text := "I reached the maximum number of tool calls. Here's what I found so far.",
       used_fallback := fb, actual_model := am, tools_used := tools_used,
       iterations := iteration, error := none, sql_queries := sqls }, ctx)
  | rem + 1, iteration, messages, ctx, tools_used, sqls, fb, am =>
    match llm messages with
    | .error e =>
      ({ response_text := "I encountered an error: " ++ e, used_fallback := fb,
         actual_model := am, tools_used := tools_used, iterations := iteration + 1,
         error := some e, sql_queries := sqls }, ctx)
    | .ok resp =>
      match resp.tool_calls with
      | some (tc0 :: tcrest) =>
        let tcl := tc0 :: tcrest
        let messages1 := messages ++
          [{ role := "assistant", content := resp.content.getD "",
             tool_calls := some tcl, tool_call_id := none }]
        let ctx1 := ctx.add_assistant_message now resp.content (some tcl)
        let acc := tcl.foldl (execToolCall callTool now)
          ⟨messages1, ctx1, tools_used, sqls⟩
        agentLoop llm callTool now rem (iteration + 1) acc.messages acc.context
          acc.tools_used acc.sql_queries resp.used_fallback resp.actual_model
      | _ =>
        let final :=
          match resp.content with
          | some c => if c = "" then "I processed your request but have no response." else c
          | none => "I processed your request but have no response."
        let ctx1 := ctx.add_assistant_message now (some final) none
        ({ response_text := final, used_fallback := resp.used_fallback,
           actual_model := resp.actual_model, tools_used := tools_used,
           iterations := iteration + 1, error := none, sql_queries := sqls }, ctx1)

/-- Message sequence `process_message` first offers to the LLM: the system
prompt followed by the trailing 15-message window of the context with the
new user message appended. -/
def initial_messages (now : Nat) (user_message : String) (ctx : ThreadContext)
    (tool_names : List String) : List ChatMessage :=
  { role := "system", content := build_system_prompt tool_names,
    tool_calls := none, tool_call_id := none } ::
    (ctx.add_user_message now user_message none).get_messages_for_llm 15

/-- Model of `process_message` (the `message_handler.py` definition):
append the user message to the context, build the prompt, and run the
agentic loop.  `tool_names` is the catalog `get_tools_for_llm` reports. -/
def process_message (now : Nat) (user_message : String) (ctx : ThreadContext)
    (tool_names : List String)
    (llm : List ChatMessage → Except String LLMResponse)
    (callTool : String → List (String × String) → Except String String) :
    ProcessingResult × ThreadContext :=
  let ctx1 := ctx.add_user_message now user_message none
  agentLoop llm callTool now MAX_ITERATIONS 0
    (initial_messages now user_message ctx tool_names) ctx1 [] [] false ""

/-! ## Cache-aware loop entry (modelled from the spec)

The repository's `app.py` invokes `process_message` with a `cache_store`
argument and reads `from_cache` / `progress_events` off the result, but
the cache-aware variant of `process_message` itself is not among the
source files (only this caller is); the spec notes that two near-identical
copies of this layer exist and describes the newer, cache-aware one. -/

/-- Modelled from the spec: the `ProcessingResult` of §3 as the cache-aware
loop returns it, extending the `message_handler.py` dataclass with
`progress_events` and `from_cache`. -/
structure ProcessingResultC where
  response_text : String
  used_fallback : Bool
  actual_model : String
  tools_used : List (String × String × List (String × String))
  iterations : Nat
  error : Option String
  sql_queries : List String
  progress_events : List String
  from_cache : Bool
  deriving DecidableEq

/-- Modelled from the spec: the cache integration of the agent loop (§4.5),
whose implementation is missing from the source tree.  On entry the user
message is normalized and looked up through `QueryCacheStore.find_match`;
a (necessarily non-expired) hit is returned as the cached
`ProcessingResult` with `from_cache = true` without consulting the LLM or
tool oracles; on a miss the `message_handler.py` loop runs and, when
auto-save is on and the loop succeeded, the answer is written through. -/
def process_message_with_cache (hq : String → String) (now ttl : Nat) (thr : ℚ)
    (auto_save : Bool) (cache : QueryCacheStore) (user_message : String)
    (ctx : ThreadContext) (tool_names : List String)
    (llm : List ChatMessage → Except String LLMResponse)
    (callTool : String → List (String × String) → Except String String) :
    ProcessingResultC × QueryCacheStore × ThreadContext :=
  match QueryCacheStore.find_match hq now ttl thr cache user_message with
  | (some r, cache1) =>
    ({ response_text := r.response_text, used_fallback := false, actual_model := "",
       tools_used := r.tools_used, iterations := 0, error := none,
       sql_queries := r.sql_queries, progress_events := r.progress_events,
       from_cache := true }, cache1, ctx)
  | (none, cache1) =>
    let run := process_message now user_message ctx tool_names llm callTool
    let res := run.1
    let cache2 :=
      if auto_save && res.error = none then
        (QueryCacheStore.save hq now cache1 user_message res.response_text
          res.tools_used res.sql_queries []).1
      else cache1
    ({ response_text := res.response_text, used_fallback := res.used_fallback,
       actual_model := res.actual_model, tools_used := res.tools_used,
       iterations := res.iterations, error := res.error,
       sql_queries := res.sql_queries, progress_events := [],
       from_cache := false }, cache2, run.2)

/-! ## Claim C7: tool-name round trip and unnamespaced dispatch -/

theorem splitFirst_cons_pos (sep : List Char) (c : Char) (rest : List Char)
    (h : sep.isPrefixOf (c :: rest) = true) :
    splitFirst sep (c :: rest) = some ([], (c :: rest).drop sep.length) := by
  simp [splitFirst, h]

theorem splitFirst_cons_neg (sep : List Char) (c : Char) (rest : List Char)
    (h : sep.isPrefixOf (c :: rest) = false) :
    splitFirst sep (c :: rest) =
      (splitFirst sep rest).map (fun p => (c :: p.1, p.2)) := by
  simp only [splitFirst, h, Bool.false_eq_true, if_false]
  cases hs : splitFirst sep rest with
  | none => rfl
  | some p => cases p with
    | mk a b => rfl

theorem splitFirst_sep_append (sid rest : List Char)
    (h : hasDoubleUnderscore (sid ++ ['_']) = false) :
    splitFirst ['_', '_'] (sid ++ '_' :: '_' :: rest) = some (sid, rest) := by
  induction sid with
  | nil =>
    have hp : (['_', '_'] : List Char).isPrefixOf ('_' :: '_' :: rest) = true := by
      simp [List.isPrefixOf]
    simpa using splitFirst_cons_pos ['_', '_'] '_' ('_' :: rest) hp
  | cons c sid' ih =>
    have hnp : (['_', '_'] : List Char).isPrefixOf (c :: (sid' ++ '_' :: '_' :: rest)) = false := by
      cases sid' with
      | nil =>
        have hc : c ≠ '_' := by
          intro hc
          simp [hasDoubleUnderscore, hc] at h
        simp [List.isPrefixOf]
        intro h1
        exact absurd h1.symm hc
      | cons d sid'' =>
        by_cases hc : c = '_'
        · have hd : d ≠ '_' := by
            intro hd
            simp [hasDoubleUnderscore, hc, hd] at h
          simp [List.isPrefixOf]
          intro _ h2
          exact absurd h2.symm hd
        · simp [List.isPrefixOf]
          intro h1
          exact absurd h1.symm hc
    have h2 : hasDoubleUnderscore (sid' ++ ['_']) = false := by
      cases sid' with
      | nil => simp [hasDoubleUnderscore]
      | cons d sid'' =>
        simp only [hasDoubleUnderscore, List.cons_append, Bool.or_eq_false_iff] at h ⊢
        exact h.2
    rw [List.cons_append, splitFirst_cons_neg _ _ _ hnp, ih h2]
    rfl

/-- Claim C7: for every catalog tool with full name
`server_id ++ "__" ++ tool_name` (catalog server ids contain no `__` and
do not end in `_`, which the guard `hasDoubleUnderscore (server_id ++ "_")
= false` captures), `parse_tool_name` returns exactly
`(server_id, tool_name)` by splitting on the first `__`, and `call_tool`
sends the unnamespaced `tool.name` — never the full name — to the owning
server. -/
theorem claim_C7 (server_id tool_name : String) (st : MCPClient)
    (initO : MCPServerConfig → Except String String)
    (callO : MCPServerConfig → String → String → List (String × String) →
      Except String MCPEnvelope)
    (full : String) (args : List (String × String)) (tool : MCPTool) :
    (hasDoubleUnderscore (server_id.data ++ ['_']) = false →
      parse_tool_name (server_id ++ "__" ++ tool_name) = (server_id, tool_name))
    ∧ (st._tools.lookup full = some tool →
      ∀ req ∈ (MCPClient.call_tool st initO callO full args).2.2,
        req = .initReq tool.server_id ∨
          req = .toolReq tool.server_id tool.name args) := by
  constructor
  · intro h
    have hdata : (server_id ++ "__" ++ tool_name).data =
        server_id.data ++ '_' :: '_' :: tool_name.data := by
      simp [String.data_append]
    unfold parse_tool_name
    rw [hdata, splitFirst_sep_append _ _ h]
  · intro h req hreq
    unfold MCPClient.call_tool at hreq
    rw [h] at hreq
    dsimp only at hreq
    rcases hsrv : st.servers.lookup tool.server_id with _ | server
    · rw [hsrv] at hreq
      simp at hreq
    · rw [hsrv] at hreq
      dsimp only at hreq
      rcases hsess : st._sessions.lookup tool.server_id with _ | sid
      · rw [hsess] at hreq
        dsimp only at hreq
        rcases hinit : initO server with e | s
        · rw [hinit] at hreq
          simp at hreq
          simp [hreq]
        · rw [hinit] at hreq
          dsimp only at hreq
          rcases hcall : callO server s tool.name args with e | env
          · rw [hcall] at hreq
            simp at hreq
            rcases hreq with h1 | h1 <;> simp [h1]
          · rw [hcall] at hreq
            cases env <;>
              · simp at hreq
                rcases hreq with h1 | h1 <;> simp [h1]
      · rw [hsess] at hreq
        dsimp only at hreq
        rcases hcall : callO server sid tool.name args with e | env
        · rw [hcall] at hreq
          simp at hreq
          simp [hreq]
        · rw [hcall] at hreq
          cases env <;>
            · simp at hreq
              simp [hreq]

/-- Concrete catalog tool used by witnesses. -/
def mcpToolW : MCPTool :=
  { name := "search_tables", description := "Search for tables",
    input_schema := "", server_id := "synth-mcp", server_url := "u" }

/-- Concrete server configuration used by witnesses. -/
def mcpServerW : MCPServerConfig :=
  { server_id := "synth-mcp", url := "u", description := "", enabled := true }

/-- Concrete client state (session already open) used by witnesses. -/
def mcpClientW : MCPClient :=
  { servers := [("synth-mcp", mcpServerW)],
    _sessions := [("synth-mcp", "sess-1")],
    _tools := [("synth-mcp__search_tables", mcpToolW)] }

/-- Oracle that opens a fresh session, used by witnesses. -/
def initOW : MCPServerConfig → Except String String := fun _ => .ok "sess-2"

/-- Oracle whose tool call succeeds, used by witnesses. -/
def callOW : MCPServerConfig → String → String → List (String × String) →
    Except String MCPEnvelope := fun _ _ _ _ => .ok (.envResult "rows")

/-- Witness for C7 at the catalog entry `synth-mcp__search_tables`. -/
theorem claim_C7_witness :
    parse_tool_name ("synth-mcp" ++ "__" ++ "search_tables") =
      ("synth-mcp", "search_tables") ∧
    (MCPRequest.toolReq "synth-mcp" "search_tables" [] =
        MCPRequest.initReq "synth-mcp" ∨
      MCPRequest.toolReq "synth-mcp" "search_tables" [] =
        MCPRequest.toolReq "synth-mcp" "search_tables" []) :=
  ⟨(claim_C7 "synth-mcp" "search_tables" mcpClientW initOW callOW
      "synth-mcp__search_tables" [] mcpToolW).1 (by decide),
   (claim_C7 "synth-mcp" "search_tables" mcpClientW initOW callOW
      "synth-mcp__search_tables" [] mcpToolW).2 (by decide)
      (.toolReq "synth-mcp" "search_tables" []) (by decide)⟩

/-! ## Claim C2: session handling of `call_tool` -/

/-- Interpretation of a `tools/call` response as `call_tool` returns it:
transport failures and envelope errors become `err`, otherwise the
payload. -/
def interpEnvelope : Except String MCPEnvelope → MCPToolResult
  | .error e => .err e
  | .ok (.envError e) => .err e
  | .ok (.envResult p) => .ok p

/-- Oracle whose tool call fails at the transport level, used by the C2
counterexample. -/
def callOFail : MCPServerConfig → String → String → List (String × String) →
    Except String MCPEnvelope := fun _ _ _ _ => .error "connection reset by peer"

/-- Counterexample to C2: with a session already stored for `synth-mcp`, a
transport-level failure of the `tools/call` request makes `call_tool`
return the error directly — the trace holds exactly one `tools/call` and
no `initialize`, so the client neither re-runs `initialize` nor retries
the tool call. -/
theorem claim_C2_counterexample :
    MCPClient.call_tool mcpClientW initOW callOFail "synth-mcp__search_tables" [] =
      (.err "connection reset by peer", mcpClientW,
        [.toolReq "synth-mcp" "search_tables" []]) ∧
    MCPRequest.initReq "synth-mcp" ∉
      (MCPClient.call_tool mcpClientW initOW callOFail
        "synth-mcp__search_tables" []).2.2 ∧
    (MCPClient.call_tool mcpClientW initOW callOFail
      "synth-mcp__search_tables" []).2.2.length = 1 := by
  refine ⟨by decide, by decide, by decide⟩

/-- Claim C2 (amended): `call_tool` re-runs `initialize` — once — only when
no session token is stored for the server, storing the new token before
the single `tools/call`; when a session token is already stored, the
request trace is exactly one `tools/call` and no `initialize` whatever the
outcome, and in particular both a transport-level failure and an explicit
session error reported in the response envelope are returned as
`{"error": ...}` without re-initializing and without retrying. -/
theorem claim_C2 (st : MCPClient)
    (initO : MCPServerConfig → Except String String)
    (callO : MCPServerConfig → String → String → List (String × String) →
      Except String MCPEnvelope)
    (full : String) (args : List (String × String)) (tool : MCPTool)
    (server : MCPServerConfig)
    (htool : st._tools.lookup full = some tool)
    (hsrv : st.servers.lookup tool.server_id = some server) :
    (∀ sid, st._sessions.lookup tool.server_id = some sid →
      MCPClient.call_tool st initO callO full args =
        (interpEnvelope (callO server sid tool.name args), st,
         [.toolReq tool.server_id tool.name args]))
    ∧ (∀ sid e, st._sessions.lookup tool.server_id = some sid →
      callO server sid tool.name args = .error e →
      MCPClient.call_tool st initO callO full args =
        (.err e, st, [.toolReq tool.server_id tool.name args]))
    ∧ (∀ sid e, st._sessions.lookup tool.server_id = some sid →
      callO server sid tool.name args = .ok (.envError e) →
      MCPClient.call_tool st initO callO full args =
        (.err e, st, [.toolReq tool.server_id tool.name args]))
    ∧ (∀ sid, st._sessions.lookup tool.server_id = none →
      initO server = .ok sid →
      MCPClient.call_tool st initO callO full args =
        (interpEnvelope (callO server sid tool.name args),
         { st with _sessions := st._sessions ++ [(tool.server_id, sid)] },
         [.initReq tool.server_id, .toolReq tool.server_id tool.name args])) := by
  have hgen : ∀ sid, st._sessions.lookup tool.server_id = some sid →
      MCPClient.call_tool st initO callO full args =
        (interpEnvelope (callO server sid tool.name args), st,
         [.toolReq tool.server_id tool.name args]) := by
    intro sid hsess
    unfold MCPClient.call_tool
    rw [htool]
    dsimp only
    rw [hsrv]
    dsimp only
    rw [hsess]
    dsimp only
    cases hcall : callO server sid tool.name args with
    | error e => simp [interpEnvelope, hcall]
    | ok env => cases env <;> simp [interpEnvelope, hcall]
  refine ⟨hgen, ?_, ?_, ?_⟩
  · intro sid e hsess hcall
    rw [hgen sid hsess, hcall]
    rfl
  · intro sid e hsess hcall
    rw [hgen sid hsess, hcall]
    rfl
  · intro sid hsess hinit
    unfold MCPClient.call_tool
    rw [htool]
    dsimp only
    rw [hsrv]
    dsimp only
    rw [hsess]
    dsimp only
    rw [hinit]
    dsimp only
    cases hcall : callO server sid tool.name args with
    | error e => simp [interpEnvelope, hcall]
    | ok env => cases env <;> simp [interpEnvelope, hcall]

/-- Oracle whose tool call reports an explicit session error inside the
response envelope, used by the C2 witness. -/
def callOSessErr : MCPServerConfig → String → String → List (String × String) →
    Except String MCPEnvelope := fun _ _ _ _ => .ok (.envError "session expired")

/-- Client state identical to `mcpClientW` but with no stored session,
used by the C2 witness. -/
def mcpClientNoSessW : MCPClient :=
  { servers := [("synth-mcp", mcpServerW)], _sessions := [],
    _tools := [("synth-mcp__search_tables", mcpToolW)] }

/-- Witness for the amended C2: with a stored session, a transport failure
and an explicit envelope session error are both returned with a
single-`tools/call` trace and no `initialize`; with no stored session,
`initialize` runs once, the token is stored, and the call follows. -/
theorem claim_C2_witness :
    MCPClient.call_tool mcpClientW initOW callOFail "synth-mcp__search_tables" [] =
      (.err "connection reset by peer", mcpClientW,
        [.toolReq "synth-mcp" "search_tables" []]) ∧
    MCPClient.call_tool mcpClientW initOW callOSessErr "synth-mcp__search_tables" [] =
      (.err "session expired", mcpClientW,
        [.toolReq "synth-mcp" "search_tables" []]) ∧
    MCPClient.call_tool mcpClientNoSessW initOW callOW "synth-mcp__search_tables" [] =
      (interpEnvelope (callOW mcpServerW "sess-2" "search_tables" []),
       { mcpClientNoSessW with _sessions := [("synth-mcp", "sess-2")] },
       [.initReq "synth-mcp", .toolReq "synth-mcp" "search_tables" []]) :=
  ⟨(claim_C2 mcpClientW initOW callOFail "synth-mcp__search_tables" [] mcpToolW
      mcpServerW (by decide) (by decide)).2.1 "sess-1" "connection reset by peer"
      (by decide) rfl,
   (claim_C2 mcpClientW initOW callOSessErr "synth-mcp__search_tables" [] mcpToolW
      mcpServerW (by decide) (by decide)).2.2.1 "sess-1" "session expired"
      (by decide) rfl,
   (claim_C2 mcpClientNoSessW initOW callOW "synth-mcp__search_tables" [] mcpToolW
      mcpServerW (by decide) (by decide)).2.2.2 "sess-2" (by decide) rfl⟩

/-! ## Claim C4: credits-error path of the LLM provider -/

/-- Claim C4: when the first primary attempt fails with a credits/quota
error, `call_with_fallback` performs no backoff sleep, makes no further
primary attempt, calls the fallback at most once, and — if the fallback
also fails while enabled and configured — raises the aggregate error
citing both underlying causes. -/
theorem claim_C4 (config : LLMConfig)
    (primary : Nat → Except LLMError LLMResponse)
    (fallback : Except LLMError LLMResponse) (e : LLMError)
    (havail : config.primary_available = true)
    (hfail : primary 1 = .error e)
    (hcred : is_credits_error e = true) :
    (call_with_fallback config primary fallback 2).2.sleeps = [] ∧
    (call_with_fallback config primary fallback 2).2.primary_attempts = 1 ∧
    (call_with_fallback config primary fallback 2).2.fallback_calls ≤ 1 ∧
    (∀ f, fallback = .error f → config.fallback_enabled = true →
      config.fallback_available = true →
      (call_with_fallback config primary fallback 2).1 =
        .error (.aggregate (some e) f)) := by
  have hprim : tryPrimary primary 2 1 2 = (none, some e, 1, []) := by
    unfold tryPrimary
    rw [hfail]
    simp [hcred]
  unfold call_with_fallback
  rw [havail]
  simp only [if_true]
  rw [hprim]
  refine ⟨?_, ?_, ?_, ?_⟩
  · cases hfb : config.fallback_enabled && config.fallback_available <;>
      simp [hfb]
    cases fallback <;> simp
  · cases hfb : config.fallback_enabled && config.fallback_available <;>
      simp [hfb]
    cases fallback <;> simp
  · cases hfb : config.fallback_enabled && config.fallback_available <;>
      simp [hfb]
    cases fallback <;> simp
  · intro f hf hen hav
    rw [hf]
    simp [hen, hav]

/-- Concrete LLM configuration used by witnesses. -/
def llmCfgW : LLMConfig :=
  { primary_model := "anthropic/claude-opus-4.5", fallback_model := "gpt-4o",
    fallback_enabled := true, primary_available := true,
    fallback_available := true }

/-- Concrete HTTP 402 error used by witnesses. -/
def llmErr402 : LLMError :=
  { status_code := some 402, status := none, msg := "Payment Required" }

/-- Concrete fallback error used by witnesses. -/
def llmErrFbW : LLMError :=
  { status_code := some 500, status := none, msg := "internal error" }

/-- Primary back-end oracle that always reports 402, used by witnesses. -/
def primary402 : Nat → Except LLMError LLMResponse := fun _ => .error llmErr402

/-- Witness for C4: primary fails with 402 on the first attempt and the
fallback fails too. -/
theorem claim_C4_witness :
    (call_with_fallback llmCfgW primary402 (.error llmErrFbW) 2).2.sleeps = [] ∧
    (call_with_fallback llmCfgW primary402 (.error llmErrFbW) 2).2.primary_attempts = 1 ∧
    (call_with_fallback llmCfgW primary402 (.error llmErrFbW) 2).2.fallback_calls ≤ 1 ∧
    (call_with_fallback llmCfgW primary402 (.error llmErrFbW) 2).1 =
      .error (.aggregate (some llmErr402) llmErrFbW) := by
  have h := claim_C4 llmCfgW primary402 (.error llmErrFbW) llmErr402 rfl rfl
    (by decide)
  exact ⟨h.1, h.2.1, h.2.2.1, h.2.2.2 llmErrFbW rfl rfl rfl⟩

/-! ## Claim C9: `ThreadContextStore.save` updates only existing rows -/

theorem thread_save_preserves_key (now : Nat) (ctx : ThreadContext)
    (row : ContextRow) :
    (if row.thread_key = ctx.thread_key then
      { row with messages := ctx.messages.map Message.to_dict,
                 metadata := ctx.metadata, updated_at := now }
     else row).thread_key = row.thread_key := by
  split <;> rfl

/-- Claim C9: saving a context whose `thread_key` was never created leaves
the store unchanged and `get` still returns `none`; once the key exists
(e.g. created via `get_or_create`), save-then-get returns a context
holding the serialize/deserialize round trip of the saved messages. -/
theorem claim_C9 (now : Nat) (st : ThreadContextStore) (ctx : ThreadContext) :
    (st.rows.find? (fun row => row.thread_key = ctx.thread_key) = none →
      ThreadContextStore.save now st ctx = st ∧
      ThreadContextStore.get (ThreadContextStore.save now st ctx)
        ctx.channel_id ctx.thread_ts = none)
    ∧ (∀ (now0 : Nat) (u : String) (ctx2 : ThreadContext),
      ctx2.channel_id = ctx.channel_id → ctx2.thread_ts = ctx.thread_ts →
      ∃ g, ThreadContextStore.get
          (ThreadContextStore.save now
            (ThreadContextStore.get_or_create now0 st
              ctx.channel_id ctx.thread_ts u).2 ctx2)
          ctx.channel_id ctx.thread_ts = some g ∧
        g.messages = (ctx2.messages.map Message.to_dict).map Message.from_dict) := by
  constructor
  · intro h
    have hall := List.find?_eq_none.mp h
    have hmap : ThreadContextStore.save now st ctx = st := by
      unfold ThreadContextStore.save
      have heach : ∀ row ∈ st.rows,
          (if row.thread_key = ctx.thread_key then
            { row with messages := ctx.messages.map Message.to_dict,
                       metadata := ctx.metadata, updated_at := now }
           else row) = row := by
        intro row hrow
        have : ¬ (row.thread_key = ctx.thread_key) := by
          simpa using hall row hrow
        simp [this]
      have : st.rows.map (fun row =>
          if row.thread_key = ctx.thread_key then
            { row with messages := ctx.messages.map Message.to_dict,
                       metadata := ctx.metadata, updated_at := now }
          else row) = st.rows := by
        simpa using List.map_congr_left heach
      rw [this]
    refine ⟨hmap, ?_⟩
    rw [hmap]
    unfold ThreadContextStore.get
    have hnone : st.rows.find?
        (fun row => row.thread_key = ctx.channel_id ++ ":" ++ ctx.thread_ts) =
          none := h
    rw [hnone]
    rfl
  · intro now0 u ctx2 hch hts
    set key := ctx.channel_id ++ ":" ++ ctx.thread_ts with hkey
    have hkey2 : ctx2.thread_key = key := by
      unfold ThreadContext.thread_key
      rw [hch, hts]
    have main : ∀ (rows : List ContextRow) (row : ContextRow),
        rows.find? (fun r => r.thread_key = key) = some row →
        ∃ g, ThreadContextStore.get
            (ThreadContextStore.save now ⟨rows⟩ ctx2)
            ctx.channel_id ctx.thread_ts = some g ∧
          g.messages = (ctx2.messages.map Message.to_dict).map Message.from_dict := by
      intro rows row hrow
      unfold ThreadContextStore.save ThreadContextStore.get
      dsimp only
      rw [List.find?_map]
      have hpred : ((fun (r : ContextRow) => decide (r.thread_key = key)) ∘
          (fun (r : ContextRow) =>
            if r.thread_key = ctx2.thread_key then
              { r with messages := ctx2.messages.map Message.to_dict,
                       metadata := ctx2.metadata, updated_at := now }
            else r)) = (fun (r : ContextRow) => decide (r.thread_key = key)) := by
        funext r
        simp only [Function.comp_apply]
        rw [thread_save_preserves_key]
      rw [hpred, hrow]
      have hrowkey : row.thread_key = ctx2.thread_key := by
        have := List.find?_some hrow
        rw [hkey2]
        simpa using this
      refine ⟨_, rfl, ?_⟩
      simp [ThreadContextStore.rowToContext, hrowkey]
    unfold ThreadContextStore.get_or_create
    cases hfind : st.rows.find? (fun row => row.thread_key = key) with
    | some row =>
      dsimp only
      exact main st.rows row hfind
    | none =>
      dsimp only
      refine main (st.rows ++
        [{ thread_key := ctx.channel_id ++ ":" ++ ctx.thread_ts,
           channel_id := ctx.channel_id, thread_ts := ctx.thread_ts,
           user_id := u, messages := [], metadata := [],
           created_at := now0, updated_at := now0 }])
        { thread_key := ctx.channel_id ++ ":" ++ ctx.thread_ts,
          channel_id := ctx.channel_id, thread_ts := ctx.thread_ts,
          user_id := u, messages := [], metadata := [],
          created_at := now0, updated_at := now0 } ?_
      rw [List.find?_append, hfind, Option.none_or]
      simp [List.find?]

/-- Concrete thread context used by witnesses. -/
def ctxW : ThreadContext :=
  { channel_id := "C1", thread_ts := "111.222", user_id := "U1",
    messages := [], metadata := [], created_at := 0, updated_at := 0 }

/-- Concrete message used by witnesses. -/
def msgW : Message :=
  { role := "user", content := "hi", timestamp := 1, user_id := some "U1",
    tool_calls := none, tool_call_id := none }

/-- Concrete thread context carrying one message, used by witnesses. -/
def ctxW2 : ThreadContext := { ctxW with messages := [msgW] }

/-- Witness for C9: saving into an empty store is a no-op, and the
round trip holds after `get_or_create`. -/
theorem claim_C9_witness :
    (ThreadContextStore.save 7 ⟨[]⟩ ctxW = ⟨[]⟩ ∧
      ThreadContextStore.get (ThreadContextStore.save 7 ⟨[]⟩ ctxW)
        ctxW.channel_id ctxW.thread_ts = none) ∧
    (∃ g, ThreadContextStore.get
        (ThreadContextStore.save 7
          (ThreadContextStore.get_or_create 5 ⟨[]⟩
            ctxW.channel_id ctxW.thread_ts "U1").2 ctxW2)
        ctxW.channel_id ctxW.thread_ts = some g ∧
      g.messages = (ctxW2.messages.map Message.to_dict).map Message.from_dict) :=
  ⟨(claim_C9 7 ⟨[]⟩ ctxW).1 rfl,
   (claim_C9 7 ⟨[]⟩ ctxW).2 5 "U1" ctxW2 rfl rfl⟩

/-! ## Claims C10 and C5: error handling and termination of the loop -/

/-- Claim C10: the loop never propagates an exception from the LLM
provider: when the provider raises, the loop returns a result whose
`error` carries the exception text, whose `response_text` reports it, and
whose `tools_used` / `sql_queries` are exactly the accumulated tool work
completed before the failure; in particular `process_message` on a
first-call failure returns with empty tool work. -/
theorem claim_C10 (llm : List ChatMessage → Except String LLMResponse)
    (callTool : String → List (String × String) → Except String String)
    (now : Nat) (ctx : ThreadContext) :
    (∀ (rem iter : Nat) (messages : List ChatMessage)
      (tu : List (String × String × List (String × String))) (sq : List String)
      (fb : Bool) (am e : String),
      0 < rem → llm messages = .error e →
      agentLoop llm callTool now rem iter messages ctx tu sq fb am =
        ({ response_text := "I encountered an error: " ++ e, used_fallback := fb,
           actual_model := am, tools_used := tu, iterations := iter + 1,
           error := some e, sql_queries := sq }, ctx))
    ∧ (∀ (q : String) (tool_names : List String) (e : String),
      llm (initial_messages now q ctx tool_names) = .error e →
      (process_message now q ctx tool_names llm callTool).1 =
        { response_text := "I encountered an error: " ++ e, used_fallback := false,
          actual_model := "", tools_used := [], iterations := 1,
          error := some e, sql_queries := [] }) := by
  constructor
  · intro rem iter messages tu sq fb am e hrem hllm
    cases rem with
    | zero => omega
    | succ rem' =>
      unfold agentLoop
      rw [hllm]
  · intro q tool_names e hllm
    unfold process_message
    dsimp only
    rw [show MAX_ITERATIONS = 9 + 1 from rfl]
    unfold agentLoop
    rw [hllm]

theorem agentLoop_iterations_le
    (llm : List ChatMessage → Except String LLMResponse)
    (callTool : String → List (String × String) → Except String String)
    (now : Nat) :
    ∀ (rem iter : Nat) (messages : List ChatMessage) (ctx : ThreadContext)
      (tu : List (String × String × List (String × String))) (sq : List String)
      (fb : Bool) (am : String),
      (agentLoop llm callTool now rem iter messages ctx tu sq fb am).1.iterations ≤
        iter + rem := by
  intro rem
  induction rem with
  | zero =>
    intro iter messages ctx tu sq fb am
    simp [agentLoop]
  | succ rem' ih =>
    intro iter messages ctx tu sq fb am
    unfold agentLoop
    cases hllm : llm messages with
    | error e => simp
    | ok resp =>
      cases htc : resp.tool_calls with
      | none => simp [htc]
      | some l =>
        cases l with
        | nil => simp [htc]
        | cons tc0 tcrest =>
          dsimp only
          rw [htc]
          dsimp only
          calc (agentLoop llm callTool now rem' (iter + 1) _ _ _ _ _ _).1.iterations
              ≤ (iter + 1) + rem' := ih _ _ _ _ _ _ _
            _ = iter + (rem' + 1) := by omega

theorem agentLoop_all_tool_calls
    (llm : List ChatMessage → Except String LLMResponse)
    (callTool : String → List (String × String) → Except String String)
    (now : Nat)
    (htc : ∀ msgs, ∃ resp tcs, llm msgs = .ok resp ∧
      resp.tool_calls = some tcs ∧ tcs ≠ []) :
    ∀ (rem iter : Nat) (messages : List ChatMessage) (ctx : ThreadContext)
      (tu : List (String × String × List (String × String))) (sq : List String)
      (fb : Bool) (am : String),
      (agentLoop llm callTool now rem iter messages ctx tu sq fb am).1.iterations =
        iter + rem ∧
      (agentLoop llm callTool now rem iter messages ctx tu sq fb am).1.response_text =
        "I reached the maximum number of tool calls. Here's what I found so far." := by
  intro rem
  induction rem with
  | zero =>
    intro iter messages ctx tu sq fb am
    simp [agentLoop]
  | succ rem' ih =>
    intro iter messages ctx tu sq fb am
    obtain ⟨resp, tcs, hok, htcs, hne⟩ := htc messages
    unfold agentLoop
    rw [hok]
    dsimp only
    rw [htcs]
    cases tcs with
    | nil => exact absurd rfl hne
    | cons tc0 tcrest =>
      dsimp only
      have := ih (iter + 1)
      constructor
      · rw [show iter + (rem' + 1) = (iter + 1) + rem' from by omega]
        exact (this _ _ _ _ _ _).1
      · exact (this _ _ _ _ _ _).2

/-- Claim C5: the agent loop performs at most `MAX_ITERATIONS = 10`
iterations (it terminates by construction), and when the model keeps
requesting tool calls every round, the loop stops after exactly
`MAX_ITERATIONS` iterations with the fallback text naming the
iteration-limit condition. -/
theorem claim_C5 (now : Nat) (q : String) (ctx : ThreadContext)
    (tool_names : List String)
    (llm : List ChatMessage → Except String LLMResponse)
    (callTool : String → List (String × String) → Except String String) :
    (process_message now q ctx tool_names llm callTool).1.iterations ≤
      MAX_ITERATIONS ∧
    ((∀ msgs, ∃ resp tcs, llm msgs = .ok resp ∧
        resp.tool_calls = some tcs ∧ tcs ≠ []) →
      (process_message now q ctx tool_names llm callTool).1.iterations =
        MAX_ITERATIONS ∧
      (process_message now q ctx tool_names llm callTool).1.response_text =
        "I reached the maximum number of tool calls. Here's what I found so far.") := by
  constructor
  · have := agentLoop_iterations_le llm callTool now MAX_ITERATIONS 0
      (initial_messages now q ctx tool_names)
      (ctx.add_user_message now q none) [] [] false ""
    simpa [process_message] using this
  · intro h
    have := agentLoop_all_tool_calls llm callTool now h MAX_ITERATIONS 0
      (initial_messages now q ctx tool_names)
      (ctx.add_user_message now q none) [] [] false ""
    simpa [process_message] using this

/-- LLM oracle that always raises, used by witnesses. -/
def llmFailW : List ChatMessage → Except String LLMResponse :=
  fun _ => .error "boom"

/-- Tool oracle that always succeeds, used by witnesses. -/
def toolOkW : String → List (String × String) → Except String String :=
  fun _ _ => .ok "\x7b\"rows\": []\x7d"

/-- Concrete tool call used by witnesses. -/
def tcW : LLMToolCall :=
  { id := "call-1", name := "postgres-mcp__execute_query",
    arguments := [("sql", "SELECT 1")] }

/-- LLM response that requests one tool call, used by witnesses. -/
def respToolW : LLMResponse :=
  { content := none, tool_calls := some [tcW], used_fallback := false,
    actual_model := "anthropic/claude-opus-4.5" }

/-- LLM oracle that always requests tool calls, used by witnesses. -/
def llmToolsW : List ChatMessage → Except String LLMResponse :=
  fun _ => .ok respToolW

/-- Witness for C10: a failing first LLM call yields the error result both
at the loop level and at the `process_message` level. -/
theorem claim_C10_witness :
    agentLoop llmFailW toolOkW 3 10 0 [] ctxW [] [] false "" =
      ({ response_text := "I encountered an error: " ++ "boom",
         used_fallback := false, actual_model := "", tools_used := [],
         iterations := 1, error := some "boom", sql_queries := [] }, ctxW) ∧
    (process_message 3 "q" ctxW [] llmFailW toolOkW).1 =
      { response_text := "I encountered an error: " ++ "boom",
        used_fallback := false, actual_model := "", tools_used := [],
        iterations := 1, error := some "boom", sql_queries := [] } :=
  ⟨(claim_C10 llmFailW toolOkW 3 ctxW).1 10 0 [] [] [] false "" "boom"
      (by omega) rfl,
   (claim_C10 llmFailW toolOkW 3 ctxW).2 "q" [] "boom" rfl⟩

/-- Witness for C5: a model that always asks for tools drives the loop to
the ten-iteration limit and the limit text. -/
theorem claim_C5_witness :
    (process_message 3 "q" ctxW [] llmToolsW toolOkW).1.iterations =
      MAX_ITERATIONS ∧
    (process_message 3 "q" ctxW [] llmToolsW toolOkW).1.response_text =
      "I reached the maximum number of tool calls. Here's what I found so far." :=
  (claim_C5 3 "q" ctxW [] llmToolsW toolOkW).2
    (fun _ => ⟨respToolW, [tcW], rfl, rfl, by simp⟩)

/-! ## Cache lemmas shared by claims C1, C3, C6 and C8 -/

theorem fuzzy_foldl_spec (norm : String) (thr : ℚ) :
    ∀ (l : List CachedResponse) (b : Option CachedResponse × ℚ),
      thr ≤ b.2 →
      (∀ r0, b.1 = some r0 → thr < fuzzy_match_score norm r0.question_normalized) →
      ∀ r, (l.foldl (fun best t =>
          let score := fuzzy_match_score norm t.question_normalized
          if best.2 < score then (some t, score) else best) b).1 = some r →
        (r ∈ l ∨ b.1 = some r) ∧
          thr < fuzzy_match_score norm r.question_normalized := by
  intro l
  induction l with
  | nil =>
    intro b hle hsome r hr
    exact ⟨Or.inr hr, hsome r hr⟩
  | cons x xs ih =>
    intro b hle hsome r hr
    rw [List.foldl_cons] at hr
    by_cases hup : b.2 < fuzzy_match_score norm x.question_normalized
    · have hstep : (if b.2 < fuzzy_match_score norm x.question_normalized then
          (some x, fuzzy_match_score norm x.question_normalized) else b) =
          (some x, fuzzy_match_score norm x.question_normalized) := if_pos hup
      rw [hstep] at hr
      have hle2 : thr ≤ fuzzy_match_score norm x.question_normalized :=
        le_of_lt (lt_of_le_of_lt hle hup)
      have hsome2 : ∀ r0,
          (some x, fuzzy_match_score norm x.question_normalized).1 = some r0 →
          thr < fuzzy_match_score norm r0.question_normalized := by
        intro r0 h0
        have : x = r0 := by simpa using h0
        subst this
        exact lt_of_le_of_lt hle hup
      obtain ⟨hmem, hscore⟩ := ih _ hle2 hsome2 r hr
      refine ⟨?_, hscore⟩
      rcases hmem with h | h
      · exact Or.inl (List.mem_cons_of_mem _ h)
      · have : x = r := by simpa using h
        exact Or.inl (this ▸ List.mem_cons_self _ _)
    · have hstep : (if b.2 < fuzzy_match_score norm x.question_normalized then
          (some x, fuzzy_match_score norm x.question_normalized) else b) = b :=
        if_neg hup
      rw [hstep] at hr
      obtain ⟨hmem, hscore⟩ := ih b hle hsome r hr
      refine ⟨?_, hscore⟩
      rcases hmem with h | h
      · exact Or.inl (List.mem_cons_of_mem _ h)
      · exact Or.inr h

theorem find_fuzzy_spec (thr : ℚ) (rows : List CachedResponse) (norm : String)
    (r : CachedResponse)
    (h : QueryCacheStore._find_fuzzy thr rows norm = some r) :
    r ∈ rows ∧ thr < fuzzy_match_score norm r.question_normalized := by
  unfold QueryCacheStore._find_fuzzy at h
  have := fuzzy_foldl_spec norm thr
    ((List.insertionSort QueryCacheStore.scanBefore rows).take 100)
    (none, thr) le_rfl (by intro r0 h0; simp at h0) r h
  obtain ⟨hmem, hscore⟩ := this
  rcases hmem with hmem | hmem
  · have : r ∈ List.insertionSort QueryCacheStore.scanBefore rows :=
      List.mem_of_mem_take hmem
    exact ⟨(List.perm_insertionSort _ rows).mem_iff.mp this, hscore⟩
  · simp at hmem

theorem find_match_cases (hq : String → String) (now ttl : Nat) (thr : ℚ)
    (st : QueryCacheStore) (q : String) :
    QueryCacheStore.find_match hq now ttl thr st q = (none, st) ∨
    ∃ r, QueryCacheStore.find_match hq now ttl thr st q =
        (some r, { st with rows := QueryCacheStore._record_hit now st.rows r.id }) ∧
      r ∈ st.rows ∧ r.is_expired now ttl = false := by
  unfold QueryCacheStore.find_match
  cases hen : st.enabled with
  | false => exact Or.inl rfl
  | true =>
    simp only [Bool.true_eq_false, if_false]
    rcases h1 : QueryCacheStore._find_by_hash st.rows
        (hq (normalize_question q)) with _ | c1
    · rcases h2 : QueryCacheStore._find_by_normalized st.rows
          (normalize_question q) with _ | c2
      · rcases h3 : QueryCacheStore._find_fuzzy thr st.rows
            (normalize_question q) with _ | c3
        · exact Or.inl rfl
        · cases hex : c3.is_expired now ttl with
          | true => simp [hex]
          | false =>
            refine Or.inr ⟨c3, by simp [hex], ?_, hex⟩
            exact (find_fuzzy_spec _ _ _ _ h3).1
      · cases hex : c2.is_expired now ttl with
        | true =>
          rcases h3 : QueryCacheStore._find_fuzzy thr st.rows
              (normalize_question q) with _ | c3
          · simp [hex]
          · cases hex3 : c3.is_expired now ttl with
            | true => simp [hex, hex3]
            | false =>
              refine Or.inr ⟨c3, by simp [hex, hex3], ?_, hex3⟩
              exact (find_fuzzy_spec _ _ _ _ h3).1
        | false =>
          refine Or.inr ⟨c2, by simp [hex], ?_, hex⟩
          exact List.mem_of_find?_eq_some h2
    · cases hex : c1.is_expired now ttl with
      | false =>
        refine Or.inr ⟨c1, by simp [hex], ?_, hex⟩
        exact List.mem_of_find?_eq_some h1
      | true =>
        rcases h2 : QueryCacheStore._find_by_normalized st.rows
            (normalize_question q) with _ | c2
        · rcases h3 : QueryCacheStore._find_fuzzy thr st.rows
              (normalize_question q) with _ | c3
          · simp [hex]
          · cases hex3 : c3.is_expired now ttl with
            | true => simp [hex, hex3]
            | false =>
              refine Or.inr ⟨c3, by simp [hex, hex3], ?_, hex3⟩
              exact (find_fuzzy_spec _ _ _ _ h3).1
        · cases hex2 : c2.is_expired now ttl with
          | true =>
            rcases h3 : QueryCacheStore._find_fuzzy thr st.rows
                (normalize_question q) with _ | c3
            · simp [hex, hex2]
            · cases hex3 : c3.is_expired now ttl with
              | true => simp [hex, hex2, hex3]
              | false =>
                refine Or.inr ⟨c3, by simp [hex, hex2, hex3], ?_, hex3⟩
                exact (find_fuzzy_spec _ _ _ _ h3).1
          | false =>
            refine Or.inr ⟨c2, by simp [hex, hex2], ?_, hex2⟩
            exact List.mem_of_find?_eq_some h2

/-! ## Claim C6: expired entries are never returned -/

/-- Claim C6: `find_match` never returns an expired cache entry — every hit
is a stored row whose age is within the TTL — and when every stored row is
expired the lookup misses and records no hit (the store is unchanged). -/
theorem claim_C6 (hq : String → String) (now ttl : Nat) (thr : ℚ)
    (st : QueryCacheStore) (q : String) :
    (∀ r, (QueryCacheStore.find_match hq now ttl thr st q).1 = some r →
      r ∈ st.rows ∧ r.is_expired now ttl = false)
    ∧ ((∀ row ∈ st.rows, row.is_expired now ttl = true) →
      QueryCacheStore.find_match hq now ttl thr st q = (none, st)) := by
  rcases find_match_cases hq now ttl thr st q with h | ⟨r0, heq, hmem, hexp⟩
  · constructor
    · intro r hr
      rw [h] at hr
      simp at hr
    · intro _
      exact h
  · constructor
    · intro r hr
      rw [heq] at hr
      simp at hr
      subst hr
      exact ⟨hmem, hexp⟩
    · intro hall
      have := hall r0 hmem
      rw [hexp] at this
      simp at this

/-- Concrete fresh cache row used by witnesses (hash function is the
identity on the normalized question). -/
def cacheRowW : CachedResponse :=
  { id := 1, question_hash := "how many merchants do we have?",
    question_text := "How many merchants do we have?",
    question_normalized := "how many merchants do we have?",
    response_text := "There are 42 merchants.",
    tools_used := [("postgres-mcp", "execute_query",
      [("sql", "SELECT COUNT(*) FROM synthetic.merchants")])],
    sql_queries := ["SELECT COUNT(*) FROM synthetic.merchants"],
    progress_events := ["working"], hit_count := 0, created_at := 0,
    last_hit_at := none }

/-- Concrete enabled cache store holding one row, used by witnesses. -/
def cacheW : QueryCacheStore := { rows := [cacheRowW], next_id := 2, enabled := true }

/-- Witness for C6: at time 0 the row is returned and is unexpired; at time
700000 (beyond the 7-day TTL) the same store yields a miss with no state
change. -/
theorem claim_C6_witness :
    (cacheRowW ∈ cacheW.rows ∧ cacheRowW.is_expired 0 CACHE_TTL_SECONDS = false) ∧
    QueryCacheStore.find_match id 700000 CACHE_TTL_SECONDS CACHE_FUZZY_THRESHOLD
      cacheW "How many merchants do we have?" = (none, cacheW) :=
  ⟨(claim_C6 id 0 CACHE_TTL_SECONDS CACHE_FUZZY_THRESHOLD cacheW
      "How many merchants do we have?").1 cacheRowW (by decide),
   (claim_C6 id 700000 CACHE_TTL_SECONDS CACHE_FUZZY_THRESHOLD cacheW
      "How many merchants do we have?").2 (by decide)⟩

/-! ## Claim C3: save-then-find round trip -/

theorem save_upd_preserves_hash (now : Nat) (q rt : String)
    (tu : List (String × String × List (String × String))) (sq pe : List String)
    (h : String) (r : CachedResponse) :
    (if r.question_hash = h then
      { r with question_text := q, response_text := rt, tools_used := tu,
               sql_queries := sq, progress_events := pe, created_at := now,
               hit_count := 0, last_hit_at := none }
     else r).question_hash = r.question_hash := by
  split <;> rfl

theorem save_enabled (hq : String → String) (now : Nat) (st : QueryCacheStore)
    (q rt : String) (tu : List (String × String × List (String × String)))
    (sq pe : List String) :
    (QueryCacheStore.save hq now st q rt tu sq pe).1.enabled = st.enabled := by
  unfold QueryCacheStore.save
  split
  · rfl
  · dsimp only
    split <;> rfl

theorem save_find_by_hash (hq : String → String) (now : Nat)
    (st : QueryCacheStore) (q rt : String)
    (tu : List (String × String × List (String × String))) (sq pe : List String)
    (hen : st.enabled = true) :
    ∃ r, QueryCacheStore._find_by_hash
        (QueryCacheStore.save hq now st q rt tu sq pe).1.rows
        (hq (normalize_question q)) = some r ∧
      r.response_text = rt ∧ r.tools_used = tu ∧ r.sql_queries = sq ∧
      r.progress_events = pe ∧ r.hit_count = 0 ∧ r.created_at = now ∧
      r.last_hit_at = none ∧
      r ∈ (QueryCacheStore.save hq now st q rt tu sq pe).1.rows := by
  unfold QueryCacheStore.save
  rw [hen]
  simp only [Bool.true_eq_false, if_false]
  by_cases hany : st.rows.any
      (fun r => r.question_hash = hq (normalize_question q)) = true
  · rw [if_pos hany]
    dsimp only
    rcases hfind : st.rows.find?
        (fun r => r.question_hash = hq (normalize_question q)) with _ | row1
    · exfalso
      obtain ⟨row0, hmem0, hp0⟩ := List.any_eq_true.mp hany
      have := List.find?_eq_none.mp hfind row0 hmem0
      exact this hp0
    · have hp1 : row1.question_hash = hq (normalize_question q) := by
        simpa using List.find?_some hfind
      refine ⟨{ row1 with question_text := q, response_text := rt, tools_used := tu, sql_queries := sq, progress_events := pe, created_at := now, hit_count := 0, last_hit_at := none }, ?_, rfl, rfl, rfl, rfl, rfl, rfl, rfl, ?_⟩
      · unfold QueryCacheStore._find_by_hash
        rw [List.find?_map]
        have hpred : ((fun (r : CachedResponse) =>
            decide (r.question_hash = hq (normalize_question q))) ∘
            (fun (r : CachedResponse) =>
              if r.question_hash = hq (normalize_question q) then
                { r with question_text := q, response_text := rt,
                         tools_used := tu, sql_queries := sq,
                         progress_events := pe, created_at := now,
                         hit_count := 0, last_hit_at := none }
              else r)) = (fun (r : CachedResponse) =>
            decide (r.question_hash = hq (normalize_question q))) := by
          funext r
          simp only [Function.comp_apply]
          rw [save_upd_preserves_hash]
        rw [hpred, hfind]
        simp [hp1]
      · have := List.mem_map_of_mem (f := fun (r : CachedResponse) =>
          if r.question_hash = hq (normalize_question q) then
            { r with question_text := q, response_text := rt, tools_used := tu,
                     sql_queries := sq, progress_events := pe, created_at := now,
                     hit_count := 0, last_hit_at := none }
          else r) (List.mem_of_find?_eq_some hfind)
        simpa [hp1] using this
  · rw [if_neg hany]
    dsimp only
    refine ⟨{ id := st.next_id, question_hash := hq (normalize_question q), question_text := q, question_normalized := normalize_question q, response_text := rt, tools_used := tu, sql_queries := sq, progress_events := pe, hit_count := 0, created_at := now, last_hit_at := none }, ?_, rfl, rfl, rfl, rfl, rfl, rfl, rfl, ?_⟩
    · unfold QueryCacheStore._find_by_hash
      rw [List.find?_append]
      have hall : ∀ x ∈ st.rows, ¬ x.question_hash = hq (normalize_question q) := by
        simpa using hany
      have hnone : st.rows.find?
          (fun r => r.question_hash = hq (normalize_question q)) = none := by
        apply List.find?_eq_none.mpr
        intro x hx
        simpa using hall x hx
      rw [hnone, Option.none_or]
      simp [List.find?]
    · simp

/-- Counterexample to C3: after `save` on a fresh enabled store,
`find_match` does hit, but the `CachedResponse` it returns is the pre-hit
snapshot with `hit_count = 0` (not 1) and `last_hit_at = NULL` — only the
stored row receives the incremented counter. -/
theorem claim_C3_counterexample :
    (QueryCacheStore.find_match id 0 CACHE_TTL_SECONDS CACHE_FUZZY_THRESHOLD
      (QueryCacheStore.save id 0 ⟨[], 1, true⟩ "Hi" "Hello!" [] [] []).1
      "Hi").1.isSome = true ∧
    (QueryCacheStore.find_match id 0 CACHE_TTL_SECONDS CACHE_FUZZY_THRESHOLD
      (QueryCacheStore.save id 0 ⟨[], 1, true⟩ "Hi" "Hello!" [] [] []).1
      "Hi").1.map CachedResponse.hit_count = some 0 ∧
    (QueryCacheStore.find_match id 0 CACHE_TTL_SECONDS CACHE_FUZZY_THRESHOLD
      (QueryCacheStore.save id 0 ⟨[], 1, true⟩ "Hi" "Hello!" [] [] []).1
      "Hi").1.map CachedResponse.hit_count ≠ some 1 ∧
    (QueryCacheStore.find_match id 0 CACHE_TTL_SECONDS CACHE_FUZZY_THRESHOLD
      (QueryCacheStore.save id 0 ⟨[], 1, true⟩ "Hi" "Hello!" [] [] []).1
      "Hi").1.bind CachedResponse.last_hit_at = none :=
  ⟨by decide, by decide, by decide, by decide⟩

/-- Claim C3 (amended): with caching enabled, `save(q, payload)` followed by
`find_match(q)` returns the payload (same `response_text`, `tools_used`,
`sql_queries`, `progress_events`); the stored entry's `hit_count` becomes 1
and its `last_hit_at` is set, while the returned snapshot still shows the
pre-hit values `hit_count = 0` and `last_hit_at = NULL`. -/
theorem claim_C3 (hq : String → String) (now ttl : Nat) (thr : ℚ)
    (st : QueryCacheStore) (q rt : String)
    (tu : List (String × String × List (String × String))) (sq pe : List String)
    (hen : st.enabled = true) :
    ∃ r, (QueryCacheStore.find_match hq now ttl thr
        (QueryCacheStore.save hq now st q rt tu sq pe).1 q).1 = some r ∧
      r.response_text = rt ∧ r.tools_used = tu ∧ r.sql_queries = sq ∧
      r.progress_events = pe ∧ r.hit_count = 0 ∧ r.last_hit_at = none ∧
      { r with hit_count := 1, last_hit_at := some now } ∈
        (QueryCacheStore.find_match hq now ttl thr
          (QueryCacheStore.save hq now st q rt tu sq pe).1 q).2.rows := by
  obtain ⟨r, hfind, hrt, htu, hsq, hpe, hhit, hcr, hlast, hmem⟩ :=
    save_find_by_hash hq now st q rt tu sq pe hen
  have hen2 : (QueryCacheStore.save hq now st q rt tu sq pe).1.enabled = true := by
    rw [save_enabled]
    exact hen
  have hexp : r.is_expired now ttl = false := by
    unfold CachedResponse.is_expired
    rw [hcr]
    simp
  have hfm : QueryCacheStore.find_match hq now ttl thr
      (QueryCacheStore.save hq now st q rt tu sq pe).1 q =
      (some r, { (QueryCacheStore.save hq now st q rt tu sq pe).1 with
        rows := QueryCacheStore._record_hit now
          (QueryCacheStore.save hq now st q rt tu sq pe).1.rows r.id }) := by
    unfold QueryCacheStore.find_match
    rw [hen2]
    simp only [Bool.true_eq_false, if_false]
    rw [hfind]
    dsimp only
    rw [hexp]
    simp only [Bool.false_eq_true, if_false]
    rw [hen2]
  refine ⟨r, ?_, hrt, htu, hsq, hpe, hhit, hlast, ?_⟩
  · rw [hfm]
  · rw [hfm]
    have := List.mem_map_of_mem (f := fun (x : CachedResponse) =>
      if x.id = r.id then
        { x with hit_count := x.hit_count + 1, last_hit_at := some now }
      else x) hmem
    simpa [QueryCacheStore._record_hit, hhit] using this

/-- Witness for the amended C3 on a fresh enabled store. -/
theorem claim_C3_witness :
    ∃ r, (QueryCacheStore.find_match id 0 CACHE_TTL_SECONDS
        CACHE_FUZZY_THRESHOLD
        (QueryCacheStore.save id 0 ⟨[], 1, true⟩ "Hi" "Hello!" [] [] []).1
        "Hi").1 = some r ∧
      r.response_text = "Hello!" ∧ r.tools_used = [] ∧ r.sql_queries = [] ∧
      r.progress_events = [] ∧ r.hit_count = 0 ∧ r.last_hit_at = none ∧
      { r with hit_count := 1, last_hit_at := some 0 } ∈
        (QueryCacheStore.find_match id 0 CACHE_TTL_SECONDS
          CACHE_FUZZY_THRESHOLD
          (QueryCacheStore.save id 0 ⟨[], 1, true⟩ "Hi" "Hello!" [] [] []).1
          "Hi").2.rows :=
  claim_C3 id 0 CACHE_TTL_SECONDS CACHE_FUZZY_THRESHOLD ⟨[], 1, true⟩
    "Hi" "Hello!" [] [] [] rfl

/-! ## Claim C8: fuzzy scoring -/

/-- Counterexample to C8: for the (degenerate, but shorter-than-15) pair of
equal empty strings the score is 0.0, not the claimed 1.0 — the emptiness
guard precedes the short-string equality guard. -/
theorem claim_C8_counterexample :
    ("" : String) = "" ∧ String.length "" < 15 ∧
    fuzzy_match_score "" "" = 0 ∧ ¬ fuzzy_match_score "" "" = 1 :=
  ⟨rfl, by decide, by decide, by decide⟩

/-- Claim C8 (amended): when either normalized question is shorter than 15
characters and both are nonempty, the score is 1.0 exactly on equality and
0.0 otherwise (when either side is empty the score is 0.0, even for two
equal empty strings); when both reach 15 characters the score is the
spec's word-overlap ratio `|words(a) ∩ words(b)| / max(|words(a)|,
|words(b)|)`; and a fuzzy lookup accepts a candidate only with score
strictly above the configured threshold. -/
theorem claim_C8 (a b : String) (thr : ℚ) (rows : List CachedResponse)
    (norm : String) (r : CachedResponse) :
    (a ≠ "" → b ≠ "" → a.length < 15 ∨ b.length < 15 →
      fuzzy_match_score a b = if a = b then 1 else 0)
    ∧ ((a = "" ∨ b = "") → fuzzy_match_score a b = 0)
    ∧ (15 ≤ a.length → 15 ≤ b.length → fuzzy_match_score a b = jaccard_spec a b)
    ∧ (QueryCacheStore._find_fuzzy thr rows norm = some r →
      thr < fuzzy_match_score norm r.question_normalized) := by
  refine ⟨?_, ?_, ?_, ?_⟩
  · intro ha hb hlen
    unfold fuzzy_match_score
    rw [if_neg (by simp [ha, hb]), if_pos (by simpa using hlen)]
  · intro h
    unfold fuzzy_match_score
    rcases h with h | h <;> simp [h]
  · intro h15a h15b
    have ha : ¬ (a = "") := by
      intro h
      subst h
      exact absurd h15a (by decide)
    have hb : ¬ (b = "") := by
      intro h
      subst h
      exact absurd h15b (by decide)
    unfold fuzzy_match_score jaccard_spec
    rw [if_neg (by simp [ha, hb])]
    rw [if_neg (by simp only [Bool.or_eq_true, decide_eq_true_eq]; omega)]
    dsimp only
    by_cases hw1 : (pyWords a).dedup = []
    · rw [if_pos (by simp [hw1])]
      rw [hw1]
      simp
    · by_cases hw2 : (pyWords b).dedup = []
      · rw [if_pos (by simp [hw2])]
        rw [hw2]
        have : ((pyWords a).dedup.filter
            (fun w => (([] : List String)).contains w)) = [] := by
          apply List.filter_eq_nil_iff.mpr
          intro w _
          simp
        rw [this]
        simp
      · rw [if_neg (by simp [hw1, hw2])]
        have hmax : 0 < max (pyWords a).dedup.length (pyWords b).dedup.length :=
          lt_of_lt_of_le (List.length_pos.mpr hw1) (le_max_left _ _)
        rw [if_pos hmax, Nat.cast_max]
  · exact fun h => (find_fuzzy_spec thr rows norm r h).2

/-- Concrete cache row with a short normalized question, used by
witnesses (fuzzy scores on short questions avoid the overlap ratio). -/
def rowShortW : CachedResponse := { cacheRowW with question_normalized := "short q" }

/-- Witness for the amended C8: a short equal pair scores 1, an empty side
scores 0, a long pair matches the spec ratio, and a concrete fuzzy lookup
accepts only above the threshold. -/
theorem claim_C8_witness :
    fuzzy_match_score "hi" "hi" = (if ("hi" : String) = "hi" then 1 else 0) ∧
    fuzzy_match_score "" "hello" = 0 ∧
    fuzzy_match_score "how many merchants do we have"
      "how many merchants do we have" =
      jaccard_spec "how many merchants do we have"
        "how many merchants do we have" ∧
    (0 : ℚ) < fuzzy_match_score "short q" rowShortW.question_normalized :=
  ⟨(claim_C8 "hi" "hi" 0 [] "" cacheRowW).1 (by decide) (by decide)
      (Or.inl (by decide)),
   (claim_C8 "" "hello" 0 [] "" cacheRowW).2.1 (Or.inl rfl),
   (claim_C8 "how many merchants do we have" "how many merchants do we have"
      0 [] "" cacheRowW).2.2.1 (by decide) (by decide),
   (claim_C8 "" "" 0 [rowShortW] "short q" rowShortW).2.2.2 (by decide)⟩

/-! ## Claim C1: cache hits short-circuit the loop -/

/-- Claim C1: on entry the user message is normalized and the cache is
consulted; on a (non-expired) hit the cached `ProcessingResult` is
returned with `from_cache = true`, its `tools_used` and `sql_queries`
equal to those stored in the cache entry — and the result and all state
are independent of the LLM and tool oracles, i.e. no new LLM or MCP call
is made for that message. -/
theorem claim_C1 (hq : String → String) (now ttl : Nat) (thr : ℚ)
    (auto_save : Bool) (cache : QueryCacheStore) (q : String)
    (ctx : ThreadContext) (tool_names : List String)
    (llm : List ChatMessage → Except String LLMResponse)
    (callTool : String → List (String × String) → Except String String)
    (r : CachedResponse) (cache1 : QueryCacheStore)
    (hhit : QueryCacheStore.find_match hq now ttl thr cache q = (some r, cache1)) :
    process_message_with_cache hq now ttl thr auto_save cache q ctx tool_names
      llm callTool =
      ({ response_text := r.response_text, used_fallback := false,
         actual_model := "", tools_used := r.tools_used, iterations := 0,
         error := none, sql_queries := r.sql_queries,
         progress_events := r.progress_events, from_cache := true },
       cache1, ctx) := by
  unfold process_message_with_cache
  rw [hhit]

/-- Store state after the witness hit: the stored row carries the
incremented hit counter. -/
def cacheHitW : QueryCacheStore :=
  { rows := [{ cacheRowW with hit_count := 1, last_hit_at := some 0 }],
    next_id := 2, enabled := true }

/-- Witness for C1: a concrete cache hit returns the cached payload with
`from_cache = true`, under oracles that would fail if consulted. -/
theorem claim_C1_witness :
    process_message_with_cache id 0 CACHE_TTL_SECONDS CACHE_FUZZY_THRESHOLD
      false cacheW "How many merchants do we have?" ctxW [] llmFailW toolOkW =
      ({ response_text := cacheRowW.response_text, used_fallback := false,
         actual_model := "", tools_used := cacheRowW.tools_used,
         iterations := 0, error := none,
         sql_queries := cacheRowW.sql_queries,
         progress_events := cacheRowW.progress_events, from_cache := true },
       cacheHitW, ctxW) :=
  claim_C1 id 0 CACHE_TTL_SECONDS CACHE_FUZZY_THRESHOLD false cacheW
    "How many merchants do we have?" ctxW [] llmFailW toolOkW cacheRowW
    cacheHitW (by decide)
